import Mathlib

/-!
Verification of the type-descriptor / serialization contract layer
(`dbms/include/DB/DataTypes/IDataType.h`).

The source file is an abstract interface: the concrete code it contains is
exactly the set of default method bodies (classification predicate defaults,
`describeMultipleStreams`, the two `...WithMultipleStreams` forwarding
defaults, the `serializeTextXML` forwarding default and the throwing
`getSizeOfField` default).  Those bodies are embedded below verbatim as Lean
functions over an explicit state-passing model:

  * a `WriteBuffer` is the list of bytes written so far (writes append);
  * a `ReadBuffer` is the list of bytes not yet consumed (reads drop a prefix);
  * an `IColumn` holding values of type `α` is the ordered list of its values;
  * a C++ `WriteBuffer *` / `ReadBuffer *` stream array is a total map from
    stream index to buffer;
  * a method that mutates an argument passed by non-const reference returns
    the new value of that argument; a const-qualified method takes the
    argument as a plain (immutable) input and does not return it.

The pure-virtual members `serializeBinaryBulk` / `deserializeBinaryBulk` have
no body in the source; where a claim depends on their behaviour they are
modelled from the specification (each such definition carries a
`Modelled from the spec:` doc comment).
-/

namespace DB

/-- Bytes of a stream.  A C++ byte is modelled as a `Nat` (a well-formed byte
is `< 256`; the model does not restrict the type, so a malformed stream can
contain out-of-range tokens). -/
abbrev Byte := Nat

/-- A `WriteBuffer`: the sequence of bytes written so far.  Serialization
methods receive the buffer and return it with their output appended. -/
abbrev WriteBuffer := List Byte

/-- A `ReadBuffer`: the sequence of bytes still available to read.
Deserialization methods consume a prefix. -/
abbrev ReadBuffer := List Byte

/-- An `IColumn` holding values of one type: the ordered sequence of its
values (`column.data.length` is the column's size). -/
structure Column (α : Type) where
  data : List α
  deriving DecidableEq, Repr

/-- Modelled from the spec: the error-code classification carried by the
single error kind this layer raises (`ErrorCodes` of the exception machinery
is not part of the source under verification; §7 of the spec gives the
taxonomy: not-implemented, malformed input, truncated stream, type
mismatch). -/
inductive ErrorCode where
  | NOT_IMPLEMENTED
  | CANNOT_PARSE
  | ATTEMPT_TO_READ_AFTER_EOF
  | TYPE_MISMATCH
  deriving DecidableEq, Repr

/-- Modelled from the spec: the exception type (`DB::Exception` is not part
of the source under verification); §6 of the spec: "failures surface as a
single distinguishable error kind carrying a message and an error-code
classification". -/
structure DBException where
  message : String
  code : ErrorCode
  deriving DecidableEq, Repr

/-- Modelled from the spec: a concrete type's canonical per-value binary
codec (§4.2 "the type's canonical fixed- or variable-width binary
encoding").  The concrete codecs live in the per-type implementations, which
are not part of the source under verification; they are abstracted as a pair
of an encoder and a one-value decoder that consumes a prefix of the stream
and either produces a value and the remaining stream or signals malformed
input. -/
structure ValueCodec (α : Type) where
  encode : α → List Byte
  decode : ReadBuffer → Except DBException (α × ReadBuffer)

/-- Concatenated canonical encodings of a sequence of values. -/
def encodeList {α : Type} (c : ValueCodec α) : List α → List Byte
  | [] => []
  | v :: vs => c.encode v ++ encodeList c vs

/-- Modelled from the spec: `serializeBinaryBulk(column, ostr, offset, limit)`
is pure virtual in the source; the source doc comment and §4.2 of the spec fix
its contract: write the contiguous sub-range `[offset, offset+limit)` of the
column's values (clamped to the column length; `limit = 0` means unbounded,
i.e. serialize to the end) into the single byte stream, using the type's
canonical per-value encoding. -/
def serializeBinaryBulkImpl {α : Type} (c : ValueCodec α) (column : Column α)
    (ostr : WriteBuffer) (offset limit : Nat) : WriteBuffer :=
  ostr ++ encodeList c
    (if limit = 0 then column.data.drop offset
     else (column.data.drop offset).take limit)

/-- Result state of a deserialization call on a column passed by non-const
reference: the column after the call, the remaining input, and the error
raised, if any. -/
structure DeserResult (α : Type) where
  column : Column α
  istr : ReadBuffer
  error : Option DBException
  deriving DecidableEq, Repr

/-- Modelled from the spec: the decoding loop of `deserializeBinaryBulk`
(§4.2, §7).  Reads values one by one: it stops cleanly (no error) when the
value limit is reached or when the stream is exhausted between values; a
decoder failure on a nonempty stream (malformed input / truncation mid-value)
aborts the whole loop with that error.  `lim = none` encodes an unbounded
read ("limit 0 means to end", §8).  The `fuel` argument makes the recursion
structural; callers pass at least `istr.length + 1`, which is sufficient
because every decoded value consumes at least one byte. -/
def deserializeLoop {α : Type} (c : ValueCodec α) :
    Nat → ReadBuffer → Option Nat → Except DBException (List α × ReadBuffer)
  | 0, istr, _ => Except.ok ([], istr)
  | fuel + 1, istr, lim =>
    if lim = some 0 then Except.ok ([], istr)
    else if istr.isEmpty then Except.ok ([], istr)
    else
      match c.decode istr with
      | Except.error e => Except.error e
      | Except.ok (v, rest) =>
        match deserializeLoop c fuel rest (Option.map (fun n => n - 1) lim) with
        | Except.error e => Except.error e
        | Except.ok (vs, rest2) => Except.ok (v :: vs, rest2)

/-- Modelled from the spec: `deserializeBinaryBulk(column, istr, limit,
avg_value_size_hint)` is pure virtual in the source; §4.2, §7 and §9 of the
spec fix its contract: read up to `limit` values (`limit = 0`: to the end of
the stream, §8) and append them to the end of the column; on any failure the
column is left exactly as it was before the call (strong exception safety:
"buffer decoded values locally and commit them in one step only after the
entire requested value (or stream) decodes successfully", §9).
`avg_value_size_hint` (a floating-point hint in the source, modelled as a
`Nat`) is a pre-sizing hint only and never affects the decoded values, so the
model ignores it. -/
def deserializeBinaryBulkImpl {α : Type} (c : ValueCodec α) (column : Column α)
    (istr : ReadBuffer) (limit : Nat) (avg_value_size_hint : Nat) : DeserResult α :=
  match deserializeLoop c (istr.length + 1) istr
      (if limit = 0 then none else some limit) with
  | Except.ok (vs, rest) => ⟨⟨column.data ++ vs⟩, rest, none⟩
  | Except.error e => ⟨column, istr, some e⟩

/-- Modelled from the spec: the common shape of every single-value
deserializer (`deserializeBinary`, `deserializeTextEscaped`,
`deserializeTextQuoted`, `deserializeTextCSV`, `deserializeTextJSON`), all
pure virtual in the source.  §4.4/§7: parse one value from the stream and, on
success, append it to the column; on failure the column is unchanged (the
source comment on `deserializeBinary`: if the function throws while reading,
the column is left in the same state as before the call).  `parse` is the
type- and dialect-specific parsing function. -/
def deserializeOneImpl {α : Type}
    (parse : ReadBuffer → Except DBException (α × ReadBuffer))
    (column : Column α) (istr : ReadBuffer) : DeserResult α :=
  match parse istr with
  | Except.error e => ⟨column, istr, some e⟩
  | Except.ok (v, rest) => ⟨⟨column.data ++ [v]⟩, rest, none⟩

/-- The `IDataType` interface.  Fields are the virtual members the default
method bodies of the source dispatch to; the `Bool` classification fields
carry the source's default values (`isNumericNotNullable`'s default body is
`return isNumeric();`, so its field default refers to the instance's
`isNumeric`).  The remaining pure-virtual members of the interface have no
body in the source and are not needed by any default body, so they are not
modelled. -/
structure IDataType (α : Type) where
  getName : String
  isNull : Bool := false
  isNullable : Bool := false
  isNumeric : Bool := false
  isNumericNotNullable : Bool := isNumeric
  behavesAsNumber : Bool := false
  serializeBinaryBulk : Column α → WriteBuffer → Nat → Nat → WriteBuffer
  deserializeBinaryBulk : Column α → ReadBuffer → Nat → Nat → DeserResult α
  serializeText : Column α → Nat → WriteBuffer → WriteBuffer

/-- Default body of `isNull`: `return false;`. -/
def isNull_default : Bool := false

/-- Default body of `isNullable`: `return false;`. -/
def isNullable_default : Bool := false

/-- Default body of `isNumeric`: `return false;`. -/
def isNumeric_default : Bool := false

/-- Default body of `isNumericNotNullable`: `return isNumeric();` — a call
through the virtual `isNumeric` of the same object. -/
def isNumericNotNullable_default {α : Type} (d : IDataType α) : Bool :=
  d.isNumeric

/-- Default body of `behavesAsNumber`: `return false;`. -/
def behavesAsNumber_default : Bool := false

/-- Default body of `describeMultipleStreams`:
`out_descriptions.emplace_back();` — push one default-constructed (empty)
string onto the vector; `level` and the object itself are unused. -/
def describeMultipleStreams_default (out_descriptions : List String)
    (level : Nat) : List String :=
  out_descriptions ++ [""]

/-- Default body of `serializeBinaryBulkWithMupltipleStreams` (sic — the
source spells it this way): `serializeBinaryBulk(column, streams[0], offset,
limit);`.  The column is passed by non-const reference, but the body only
invokes the const-qualified `serializeBinaryBulk`, embedded as a pure
function of the column, so the returned column is the input column;
`streams[0]` receives the bytes of the const call and no other stream is
touched; `num_streams` and `position_independent_encoding` are unused. -/
def serializeBinaryBulkWithMupltipleStreams_default {α : Type}
    (d : IDataType α) (column : Column α) (streams : Nat → WriteBuffer)
    (num_streams : Nat) (position_independent_encoding : Bool)
    (offset limit : Nat) : Column α × (Nat → WriteBuffer) :=
  (column,
   fun i => if i = 0 then d.serializeBinaryBulk column (streams 0) offset limit
            else streams i)

/-- Default body of `deserializeBinaryBulkWithMultipleStreams`:
`deserializeBinaryBulk(column, streams[0], limit, avg_value_size_hint);`.
The result of the forwarded call (new column contents, leftover input,
possible error) is returned together with the stream array in which only
stream `0` has been consumed from. -/
def deserializeBinaryBulkWithMultipleStreams_default {α : Type}
    (d : IDataType α) (column : Column α) (streams : Nat → ReadBuffer)
    (num_streams : Nat) (position_independent_encoding : Bool)
    (limit : Nat) (avg_value_size_hint : Nat) :
    DeserResult α × (Nat → ReadBuffer) :=
  let r := d.deserializeBinaryBulk column (streams 0) limit avg_value_size_hint
  (r, fun i => if i = 0 then r.istr else streams i)

/-- Default body of `serializeTextXML`:
`serializeText(column, row_num, ostr);`. -/
def serializeTextXML_default {α : Type} (d : IDataType α) (column : Column α)
    (row_num : Nat) (ostr : WriteBuffer) : WriteBuffer :=
  d.serializeText column row_num ostr

/-- Default body of `getSizeOfField`:
`throw Exception("getSizeOfField() method is not implemented for data type "
+ getName(), ErrorCodes::NOT_IMPLEMENTED);` — embedded as an `Except` value
that is always the error. -/
def getSizeOfField_default {α : Type} (d : IDataType α) : Except DBException Nat :=
  Except.error
    ⟨"getSizeOfField() method is not implemented for data type " ++ d.getName,
     ErrorCode.NOT_IMPLEMENTED⟩

/-- A concrete fixed-width one-byte codec (the canonical encoding of a
`UInt8`-like type: each value is exactly its one byte), used to instantiate
the generic theorems on concrete inputs.  Decoding fails on an out-of-range
byte token and on an empty stream. -/
def byteCodec : ValueCodec (Fin 256) where
  encode := fun v => [v.val]
  decode := fun istr =>
    match istr with
    | [] =>
      Except.error
        ⟨"Attempt to read after end of buffer", ErrorCode.ATTEMPT_TO_READ_AFTER_EOF⟩
    | b :: rest =>
      if h : b < 256 then Except.ok (⟨b, h⟩, rest)
      else Except.error ⟨"Cannot parse UInt8 value", ErrorCode.CANNOT_PARSE⟩

/-- A concrete descriptor built on `byteCodec`, with the classification
defaults of the source except `isNumeric`, which it overrides to `true`. -/
def dataTypeUInt8 : IDataType (Fin 256) where
  getName := "UInt8"
  isNumeric := true
  behavesAsNumber := true
  serializeBinaryBulk := serializeBinaryBulkImpl byteCodec
  deserializeBinaryBulk := deserializeBinaryBulkImpl byteCodec
  serializeText := fun column row_num ostr =>
    ostr ++ (Nat.toDigits 10 (column.data.getD row_num 0).val).map Char.toNat

/-- A single-value parser that rejects every input, used to exercise the
failure path of `deserializeOneImpl` on concrete inputs. -/
def failParse : ReadBuffer → Except DBException (Fin 256 × ReadBuffer) :=
  fun _ => Except.error ⟨"Cannot parse input", ErrorCode.CANNOT_PARSE⟩

/-- A concrete write-stream array: stream `1` already holds one byte. -/
def exampleWriteStreams : Nat → WriteBuffer :=
  fun i => if i = 1 then [17] else []

/-- A concrete read-stream array: stream `0` holds two encoded values,
stream `1` holds unrelated bytes. -/
def exampleReadStreams : Nat → ReadBuffer :=
  fun i => if i = 0 then [7, 8] else [42]

/-! ## Helper lemmas -/

/-- When every value encodes to at least one byte, a sequence never encodes
to fewer bytes than it has values. -/
theorem length_le_encodeList_length {α : Type} (c : ValueCodec α)
    (henc : ∀ v, c.encode v ≠ []) (vals : List α) :
    vals.length ≤ (encodeList c vals).length := by
  induction vals with
  | nil => simp [encodeList]
  | cons v vs ih =>
    have h1 : 1 ≤ (c.encode v).length := by
      cases h : c.encode v with
      | nil => exact absurd h (henc v)
      | cons b bs => simp
    simp only [encodeList, List.length_append, List.length_cons]
    omega

/-- The byte codec correctly decodes what it encodes in front of any
remaining stream. -/
theorem byteCodec_decode_encode (v : Fin 256) (rest : ReadBuffer) :
    byteCodec.decode (byteCodec.encode v ++ rest) = Except.ok (v, rest) := by
  simp [byteCodec, v.isLt]

/-- The byte codec never produces an empty encoding. -/
theorem byteCodec_encode_ne_nil (v : Fin 256) : byteCodec.encode v ≠ [] := by
  simp [byteCodec]

/-- The decoding loop, run on exactly the canonical encoding of a value
sequence with enough fuel and a limit that does not truncate, recovers the
sequence and consumes the whole stream. -/
theorem deserializeLoop_encodeList {α : Type} (c : ValueCodec α)
    (hdec : ∀ v rest, c.decode (c.encode v ++ rest) = Except.ok (v, rest))
    (henc : ∀ v, c.encode v ≠ []) (vals : List α) :
    ∀ (fuel : Nat) (lim : Option Nat), vals.length < fuel →
      (∀ n, lim = some n → vals.length ≤ n) →
      deserializeLoop c fuel (encodeList c vals) lim = Except.ok (vals, []) := by
  induction vals with
  | nil =>
    intro fuel lim hfuel hlim
    cases fuel with
    | zero => simp at hfuel
    | succ f =>
      unfold deserializeLoop
      by_cases h0 : lim = some 0 <;> simp [h0, encodeList]
  | cons v vs ih =>
    intro fuel lim hfuel hlim
    cases fuel with
    | zero => simp at hfuel
    | succ f =>
      have hlim0 : lim ≠ some 0 := by
        intro h
        have hc := hlim 0 h
        simp only [List.length_cons] at hc
        omega
      have hne : (encodeList c (v :: vs)).isEmpty = false := by
        cases h : c.encode v with
        | nil => exact absurd h (henc v)
        | cons b bs => simp [encodeList, h]
      have hdecv : c.decode (encodeList c (v :: vs))
          = Except.ok (v, encodeList c vs) := hdec v (encodeList c vs)
      have hrec : deserializeLoop c f (encodeList c vs)
          (Option.map (fun n => n - 1) lim) = Except.ok (vs, []) := by
        apply ih
        · simp only [List.length_cons] at hfuel
          omega
        · intro n hn
          cases lim with
          | none =>
            rw [Option.map_none'] at hn
            exact Option.noConfusion hn
          | some m =>
            simp only [Option.map_some', Option.some_inj] at hn
            have hm := hlim m rfl
            simp only [List.length_cons] at hm
            omega
      unfold deserializeLoop
      rw [if_neg hlim0, if_neg (by simp [hne])]
      rw [hdecv]
      simp [hrec]

/-! ## Claim theorems -/

/-- Claim C3: with the precondition `offset ≤ column.length`, the modelled
`serializeBinaryBulk` (a) with `limit = 0` serializes from `offset` to the
end of the column, (b) when `offset + limit` exceeds the column length
produces the same output as `limit = 0`, and (c) with `offset` equal to the
column length appends an empty encoding for any `limit`. -/
theorem serializeBinaryBulk_range_semantics {α : Type} (c : ValueCodec α)
    (column : Column α) (ostr : WriteBuffer) (offset limit : Nat)
    (h : offset ≤ column.data.length) :
    (serializeBinaryBulkImpl c column ostr offset 0
        = ostr ++ encodeList c (column.data.drop offset)) ∧
    (column.data.length < offset + limit →
      serializeBinaryBulkImpl c column ostr offset limit
        = serializeBinaryBulkImpl c column ostr offset 0) ∧
    (offset = column.data.length →
      serializeBinaryBulkImpl c column ostr offset limit = ostr) := by
  refine ⟨by simp [serializeBinaryBulkImpl], ?_, ?_⟩
  · intro hover
    by_cases h0 : limit = 0
    · rw [h0]
    · have htake : (column.data.drop offset).take limit
          = column.data.drop offset := by
        apply List.take_of_length_le
        rw [List.length_drop]
        omega
      simp [serializeBinaryBulkImpl, h0, htake]
  · intro hend
    have hdrop : column.data.drop offset = [] := by
      apply List.drop_eq_nil_of_le
      omega
    by_cases h0 : limit = 0 <;>
      simp [serializeBinaryBulkImpl, h0, hdrop, encodeList]

/-- Claim C3 witness: concrete instance at `offset = 3 = column.length`,
`limit = 10`. -/
theorem serializeBinaryBulk_range_semantics_witness :
    serializeBinaryBulkImpl byteCodec
      ⟨[(5 : Fin 256), (6 : Fin 256), (7 : Fin 256)]⟩ [9] 3 10 = [9] :=
  (serializeBinaryBulk_range_semantics byteCodec
      ⟨[(5 : Fin 256), (6 : Fin 256), (7 : Fin 256)]⟩ [9] 3 10
      (by decide)).2.2 (by decide)

/-- Claim C1: for every type descriptor (abstracted by its canonical
per-value codec, assumed correct: decoding inverts encoding, and every value
occupies at least one byte) and every finite sequence of `N` values,
deserializing with the modelled `deserializeBinaryBulk` the bytes produced by
the modelled `serializeBinaryBulk` over the full range (offset `0`, no limit
truncation on either side) appends to the target column exactly those `N`
values and consumes the whole stream without error. -/
theorem serializeBinaryBulk_deserializeBinaryBulk_roundtrip {α : Type}
    (c : ValueCodec α)
    (hdec : ∀ v rest, c.decode (c.encode v ++ rest) = Except.ok (v, rest))
    (henc : ∀ v, c.encode v ≠ [])
    (column : Column α) (vals : List α) (slimit rlimit hint : Nat)
    (hs : slimit = 0 ∨ vals.length ≤ slimit)
    (hr : rlimit = 0 ∨ vals.length ≤ rlimit) :
    deserializeBinaryBulkImpl c column
        (serializeBinaryBulkImpl c ⟨vals⟩ [] 0 slimit) rlimit hint
      = ⟨⟨column.data ++ vals⟩, [], none⟩ := by
  have hser : serializeBinaryBulkImpl c ⟨vals⟩ [] 0 slimit
      = encodeList c vals := by
    unfold serializeBinaryBulkImpl
    by_cases h0 : slimit = 0
    · simp [h0]
    · have hle : vals.length ≤ slimit := by
        cases hs with
        | inl h => exact absurd h h0
        | inr h => exact h
      simp [h0, List.take_of_length_le hle]
  rw [hser]
  unfold deserializeBinaryBulkImpl
  rw [deserializeLoop_encodeList c hdec henc vals _ _
    (by have := length_le_encodeList_length c henc vals; omega)
    (by
      intro n hn
      by_cases h0 : rlimit = 0
      · simp [h0] at hn
      · rw [if_neg h0] at hn
        cases hn
        cases hr with
        | inl h => exact absurd h h0
        | inr h => exact h)]

/-- Claim C1 witness: the byte codec round-trips the column
`[0, 1, 255]` appended after an existing value `9`. -/
theorem serializeBinaryBulk_deserializeBinaryBulk_roundtrip_witness :
    deserializeBinaryBulkImpl byteCodec ⟨[(9 : Fin 256)]⟩
        (serializeBinaryBulkImpl byteCodec
          ⟨[(0 : Fin 256), (1 : Fin 256), (255 : Fin 256)]⟩ [] 0 0) 0 0
      = ⟨⟨[(9 : Fin 256), (0 : Fin 256), (1 : Fin 256), (255 : Fin 256)]⟩,
         [], none⟩ :=
  serializeBinaryBulk_deserializeBinaryBulk_roundtrip byteCodec
    byteCodec_decode_encode byteCodec_encode_ne_nil ⟨[(9 : Fin 256)]⟩
    [(0 : Fin 256), (1 : Fin 256), (255 : Fin 256)] 0 0 0
    (Or.inl rfl) (Or.inl rfl)

/-- Claim C2: for the modelled `deserializeBinaryBulk` and for the common
modelled shape of every single-value deserializer (`deserializeBinary`,
`deserializeTextEscaped`, `deserializeTextQuoted`, `deserializeTextCSV`,
`deserializeTextJSON`, abstracted over their type- and dialect-specific
parsing function), every input on which the operation fails leaves the
target column's observable state (length and contents) exactly as it was
immediately before the call: no partially decoded value is committed. -/
theorem deserialize_failure_preserves_column {α : Type} (c : ValueCodec α)
    (column : Column α) (istr : ReadBuffer) (limit hint : Nat)
    (parse : ReadBuffer → Except DBException (α × ReadBuffer))
    (istr2 : ReadBuffer) (e1 e2 : DBException)
    (h1 : (deserializeBinaryBulkImpl c column istr limit hint).error = some e1)
    (h2 : (deserializeOneImpl parse column istr2).error = some e2) :
    (deserializeBinaryBulkImpl c column istr limit hint).column = column ∧
    (deserializeOneImpl parse column istr2).column = column := by
  constructor
  · unfold deserializeBinaryBulkImpl at h1 ⊢
    cases hl : deserializeLoop c (istr.length + 1) istr
        (if limit = 0 then none else some limit) with
    | ok p =>
      obtain ⟨vs, rest⟩ := p
      rw [hl] at h1
      simp at h1
    | error e => rfl
  · unfold deserializeOneImpl at h2 ⊢
    cases hp : parse istr2 with
    | ok p =>
      obtain ⟨v, rest⟩ := p
      rw [hp] at h2
      simp at h2
    | error e => rfl

/-- Claim C2 witness: a bulk read of the malformed stream `[300]` (an
out-of-range byte token) and a single-value read through an always-failing
parser both fail and both leave the one-element column untouched. -/
theorem deserialize_failure_preserves_column_witness :
    (deserializeBinaryBulkImpl byteCodec ⟨[(1 : Fin 256)]⟩ [300] 0 0).column
        = ⟨[(1 : Fin 256)]⟩ ∧
    (deserializeOneImpl failParse ⟨[(1 : Fin 256)]⟩ []).column
        = ⟨[(1 : Fin 256)]⟩ :=
  deserialize_failure_preserves_column byteCodec ⟨[(1 : Fin 256)]⟩ [300] 0 0
    failParse []
    ⟨"Cannot parse UInt8 value", ErrorCode.CANNOT_PARSE⟩
    ⟨"Cannot parse input", ErrorCode.CANNOT_PARSE⟩
    (by decide) (by decide)

/-- Claim C4: the default `serializeBinaryBulkWithMupltipleStreams` has
exactly the effect of `serializeBinaryBulk(column, streams[0], offset,
limit)`: the same bytes end up on stream `0`, every other stream is
untouched, and `num_streams` and `position_independent_encoding` have no
influence on the result. -/
theorem serializeWithMupltipleStreams_default_forwards {α : Type}
    (d : IDataType α) (column : Column α) (streams : Nat → WriteBuffer)
    (num_streams : Nat) (pie : Bool) (offset limit : Nat) :
    ((serializeBinaryBulkWithMupltipleStreams_default d column streams
          num_streams pie offset limit).2 0
        = d.serializeBinaryBulk column (streams 0) offset limit) ∧
    (∀ i, i ≠ 0 →
      (serializeBinaryBulkWithMupltipleStreams_default d column streams
          num_streams pie offset limit).2 i = streams i) ∧
    (∀ (n2 : Nat) (pie2 : Bool),
      serializeBinaryBulkWithMupltipleStreams_default d column streams
          num_streams pie offset limit
        = serializeBinaryBulkWithMupltipleStreams_default d column streams
            n2 pie2 offset limit) := by
  refine ⟨rfl, ?_, fun n2 pie2 => rfl⟩
  intro i hi
  simp [serializeBinaryBulkWithMupltipleStreams_default, hi]

/-- Claim C4 witness: on the concrete `UInt8` descriptor with two streams,
stream `1` keeps its prior contents. -/
theorem serializeWithMupltipleStreams_default_forwards_witness :
    (serializeBinaryBulkWithMupltipleStreams_default dataTypeUInt8
        ⟨[(7 : Fin 256)]⟩ exampleWriteStreams 2 true 0 0).2 1
      = exampleWriteStreams 1 :=
  (serializeWithMupltipleStreams_default_forwards dataTypeUInt8
      ⟨[(7 : Fin 256)]⟩ exampleWriteStreams 2 true 0 0).2.1 1 (by decide)

/-- Claim C5: the default `deserializeBinaryBulkWithMultipleStreams` has
exactly the effect of `deserializeBinaryBulk(column, streams[0], limit,
avg_value_size_hint)`: the forwarded call's result (appended values,
leftover input, error) is the result, only stream `0` is consumed from,
and `num_streams` and `position_independent_encoding` have no influence on
the result. -/
theorem deserializeWithMultipleStreams_default_forwards {α : Type}
    (d : IDataType α) (column : Column α) (streams : Nat → ReadBuffer)
    (num_streams : Nat) (pie : Bool) (limit hint : Nat) :
    ((deserializeBinaryBulkWithMultipleStreams_default d column streams
          num_streams pie limit hint).1
        = d.deserializeBinaryBulk column (streams 0) limit hint) ∧
    ((deserializeBinaryBulkWithMultipleStreams_default d column streams
          num_streams pie limit hint).2 0
        = (d.deserializeBinaryBulk column (streams 0) limit hint).istr) ∧
    (∀ i, i ≠ 0 →
      (deserializeBinaryBulkWithMultipleStreams_default d column streams
          num_streams pie limit hint).2 i = streams i) ∧
    (∀ (n2 : Nat) (pie2 : Bool),
      deserializeBinaryBulkWithMultipleStreams_default d column streams
          num_streams pie limit hint
        = deserializeBinaryBulkWithMultipleStreams_default d column streams
            n2 pie2 limit hint) := by
  refine ⟨rfl, rfl, ?_, fun n2 pie2 => rfl⟩
  intro i hi
  simp [deserializeBinaryBulkWithMultipleStreams_default, hi]

/-- Claim C5 witness: on the concrete `UInt8` descriptor with two read
streams, stream `1` keeps its prior contents. -/
theorem deserializeWithMultipleStreams_default_forwards_witness :
    (deserializeBinaryBulkWithMultipleStreams_default dataTypeUInt8
        ⟨[]⟩ exampleReadStreams 2 true 0 0).2 1
      = exampleReadStreams 1 :=
  (deserializeWithMultipleStreams_default_forwards dataTypeUInt8
      ⟨[]⟩ exampleReadStreams 2 true 0 0).2.2.1 1 (by decide)

/-- Claim C6: the default `describeMultipleStreams` appends exactly one
element — the empty string — to `out_descriptions`, leaves every previously
present element unchanged, and its output does not depend on `level`; being
a pure function, repeated calls on the same arguments agree. -/
theorem describeMultipleStreams_default_spec (out_descriptions : List String)
    (level : Nat) :
    (describeMultipleStreams_default out_descriptions level).length
        = out_descriptions.length + 1 ∧
    (describeMultipleStreams_default out_descriptions level).take
        out_descriptions.length = out_descriptions ∧
    (describeMultipleStreams_default out_descriptions level).drop
        out_descriptions.length = [""] ∧
    ∀ level2 : Nat, describeMultipleStreams_default out_descriptions level
        = describeMultipleStreams_default out_descriptions level2 := by
  refine ⟨by simp [describeMultipleStreams_default], ?_, ?_, fun l2 => rfl⟩
  · exact List.take_left out_descriptions [""]
  · exact List.drop_left out_descriptions [""]

/-- Claim C7: the default `getSizeOfField` raises a not-implemented error
whose code is `NOT_IMPLEMENTED` and whose message contains the descriptor's
`getName()`; it is the error outcome, never a returned size value. -/
theorem getSizeOfField_default_not_implemented {α : Type} (d : IDataType α) :
    ∃ e : DBException,
      getSizeOfField_default d = Except.error e ∧
      e.code = ErrorCode.NOT_IMPLEMENTED ∧
      ∃ s : String, e.message = s ++ d.getName :=
  ⟨⟨"getSizeOfField() method is not implemented for data type "
      ++ d.getName, ErrorCode.NOT_IMPLEMENTED⟩,
   rfl, rfl,
   ⟨"getSizeOfField() method is not implemented for data type ", rfl⟩⟩

/-- Claim C8: the default `serializeTextXML` writes exactly the same bytes
as `serializeText` on the same column, row index and output stream. -/
theorem serializeTextXML_default_eq_serializeText {α : Type}
    (d : IDataType α) (column : Column α) (row_num : Nat)
    (ostr : WriteBuffer) :
    serializeTextXML_default d column row_num ostr
      = d.serializeText column row_num ostr := rfl

/-- Claim C9: the default bodies of `isNull`, `isNullable`, `isNumeric` and
`behavesAsNumber` each return `false`, and the default body of
`isNumericNotNullable` returns exactly the value of the (possibly
overridden) virtual `isNumeric` of the same descriptor.  Each is embedded
as a state-free `Bool`-valued function, which is precisely the purity the
claim demands. -/
theorem classification_defaults {α : Type} (d : IDataType α) :
    isNull_default = false ∧ isNullable_default = false ∧
    isNumeric_default = false ∧ behavesAsNumber_default = false ∧
    isNumericNotNullable_default d = d.isNumeric :=
  ⟨rfl, rfl, rfl, rfl, rfl⟩

/-- Claim C10: every serialization operation is embedded as a pure function
that takes the column as a plain input (the const read path cannot mutate
it); in particular the default `serializeBinaryBulkWithMupltipleStreams`,
which receives the column by non-const reference and therefore returns a
column state, returns it unchanged, since its body only invokes the
const-qualified `serializeBinaryBulk`. -/
theorem serializeWithMupltipleStreams_default_preserves_column {α : Type}
    (d : IDataType α) (column : Column α) (streams : Nat → WriteBuffer)
    (num_streams : Nat) (pie : Bool) (offset limit : Nat) :
    (serializeBinaryBulkWithMupltipleStreams_default d column streams
        num_streams pie offset limit).1 = column := rfl

end DB
